import Mathlib

/-!
Verification of the nele-bank transaction engine against its specification.

The definitions below are a shallow embedding of the TypeScript sources:
  src/services/transaction.service.ts  (TransactionService)
  src/services/b2b.service.ts          (B2BService, final revision in the file)
  src/services/bank.service.ts         (BankService.convertAmount)
  src/services/account.service.ts      (AccountService.updateAccountCurrency)
  src/controllers/transaction.controller.ts (first revision, the one that
    decodes the inbound JWT without signature verification)
  src/models/account.model.ts, transaction model (unnamed source part):
    account ids are primary keys, transactionId is a UNIQUE column.

Modelling conventions:
  - JavaScript numbers (amounts, balances, rates) are modelled as Rat.
  - The database is a Ledger value threaded explicitly; every service
    method returns the new Ledger together with an Except result, because
    the code records failed transactions (state changes even on error).
  - Sequelize decrement/increment/save on an account are modelled as an
    update of the single stored balance of that account.
  - Network and crypto effects (central-bank registry, JWKS fetch,
    exchange-rate API, HTTP delivery, RSA signature verification, private
    key loading) are parameters collected in an Env record, since they are
    external services the code calls through axios/jsonwebtoken.
  - UUID generation (crypto.randomUUID / uuidv4) is passed in as an
    explicit freshId argument.
  - Date timestamps are abstracted: completedAt is a Bool flag recording
    whether the code set it.
-/

/-- Status enum from src/interfaces/transaction.interface.ts. -/
inductive TransactionStatus where
  | pending
  | inProgress
  | completed
  | failed
deriving DecidableEq, Repr

/-- Type enum from src/interfaces/transaction.interface.ts. -/
inductive TransactionType where
  | internal
  | external
deriving DecidableEq, Repr

/-- Error taxonomy from src/utils/errors.ts; jsError stands for a plain
JavaScript Error thrown with new Error(message). -/
inductive AppError where
  | notFound (resource : String)
  | insufficientFunds
  | validation (msg : String)
  | transactionError (msg : String)
  | externalService (service : String)
  | jsError (msg : String)
deriving DecidableEq, Repr

/-- Message carried by an error, mirroring the message fields assigned in
src/utils/errors.ts constructors. -/
def msgOf : AppError → String
  | .notFound resource => resource ++ " not found"
  | .insufficientFunds => "Insufficient funds for this transaction"
  | .validation m => m
  | .transactionError m => m
  | .externalService s => "Error communicating with " ++ s
  | .jsError m => m

/-- Account row from the account model: id primary key, unique
accountNumber, owning user, ISO currency code, DECIMAL balance. -/
structure Account where
  id : Nat
  accountNumber : String
  userId : Nat
  currency : String
  balance : Rat
deriving DecidableEq, Repr

/-- Transaction row from the transaction model. The transactionId column
is declared unique there. -/
structure TransactionRec where
  transactionId : String
  type : TransactionType
  status : TransactionStatus
  amount : Rat
  currency : String
  fromAccountId : Option Nat
  toAccountId : Option Nat
  fromUserId : Option Nat
  toUserId : Option Nat
  externalFromAccount : Option String
  externalToAccount : Option String
  externalBankId : Option String
  description : Option String
  errorMessage : Option String
  completedAt : Bool
deriving DecidableEq, Repr

/-- User row (only the name is read by the transaction engine, through the
include of the user association). -/
structure UserRec where
  id : Nat
  name : String
deriving DecidableEq, Repr

/-- The persistent state owned by the ledger store. -/
structure Ledger where
  accounts : List Account
  transactions : List TransactionRec
  users : List UserRec
deriving DecidableEq, Repr

/-- First element satisfying the predicate, as a SELECT returning one row
does (semantics of List.find?, stated recursively with ite so that proofs
can unfold it). -/
def findFirst {α : Type} (p : α → Bool) : List α → Option α
  | [] => none
  | a :: l => if p a then some a else findFirst p l

/-- Account.findByPk: lookup by primary key. -/
def findByPk (st : Ledger) (accountId : Nat) : Option Account :=
  findFirst (fun a => decide (a.id = accountId)) st.accounts

/-- Account.findOne with a where accountNumber clause. -/
def findByNumber (st : Ledger) (accountNumber : String) : Option Account :=
  findFirst (fun a => decide (a.accountNumber = accountNumber)) st.accounts

/-- Balance of the account with the given id, if present. -/
def balanceOf (st : Ledger) (accountId : Nat) : Option Rat :=
  (findByPk st accountId).map (fun a => a.balance)

/-- An UPDATE of the account row with the given primary key. -/
def updateAccount (st : Ledger) (accountId : Nat) (f : Account → Account) : Ledger :=
  { st with accounts := st.accounts.map (fun a => if a.id = accountId then f a else a) }

/-- Transaction.findOne with a where transactionId clause. -/
def txById (st : Ledger) (tid : String) : Option TransactionRec :=
  findFirst (fun t => decide (t.transactionId = tid)) st.transactions

/-- Does some stored transaction already use this transactionId. -/
def txIdExists (st : Ledger) (tid : String) : Bool :=
  (txById st tid).isSome

/-- Transaction.create: the transactionId column is unique, so inserting a
duplicate identifier fails with a constraint violation. -/
def txCreate (st : Ledger) (tx : TransactionRec) : Except AppError Ledger :=
  if txIdExists st tx.transactionId then
    .error (.jsError "Validation error: transactionId must be unique")
  else
    .ok { st with transactions := st.transactions ++ [tx] }

/-- Save of status/errorMessage mutations on the row with this
transactionId. -/
def updateTx (st : Ledger) (tid : String) (f : TransactionRec → TransactionRec) : Ledger :=
  { st with transactions := st.transactions.map (fun t => if t.transactionId = tid then f t else t) }

/-- JavaScript a or-else b on strings: the empty string and a missing value
are falsy. -/
def jsOrStr (a : Option String) (b : String) : String :=
  match a with
  | none => b
  | some s => if s = "" then b else s

/-- IInternalTransfer from src/interfaces/transaction.interface.ts. -/
structure IInternalTransfer where
  fromAccountId : Nat
  toAccount : String
  amount : Rat
  currency : String
  description : Option String
deriving DecidableEq, Repr

/-- IExternalTransfer from src/interfaces/transaction.interface.ts. -/
structure IExternalTransfer where
  fromAccountId : Nat
  toAccount : String
  toBankId : String
  amount : Rat
  currency : String
  description : Option String
deriving DecidableEq, Repr

/-- TransactionService.validateAccounts (transaction.service.ts lines
63-78): resolve the source account, then check funds, then positivity.
The toAccountNumber argument is accepted and ignored, as in the source. -/
def validateAccounts (st : Ledger) (fromAccountId : Nat) (toAccountNumber : String)
    (amount : Rat) : Except AppError Account :=
  match findByPk st fromAccountId with
  | none => .error (.notFound "Source account")
  | some fromAccount =>
    if fromAccount.balance < amount then .error .insufficientFunds
    else if amount ≤ 0 then .error (.validation "Transaction amount must be positive")
    else .ok fromAccount

/-- TransactionService.updateBalances (lines 80-104): decrement the source
balance, and additionally credit the destination when the type is
internal. The enclosing database transaction is modelled as total. -/
def updateBalances (st : Ledger) (fromAccount : Account) (toAccount : Option Account)
    (amount : Rat) (ty : TransactionType) : Ledger :=
  let st1 := updateAccount st fromAccount.id (fun a => { a with balance := a.balance - amount })
  match ty, toAccount with
  | .internal, some acc => updateAccount st1 acc.id (fun a => { a with balance := a.balance + amount })
  | _, _ => st1

/-- The pending record built by TransactionService.createInternalTransfer
(lines 130-143). Note that its currency is fromAccount.currency: the
currency field of the request is never read. -/
def internalPendingTx (freshId : String) (d : IInternalTransfer)
    (fromAccount toAccount : Account) : TransactionRec :=
  { transactionId := freshId
    type := .internal
    status := .pending
    amount := d.amount
    currency := fromAccount.currency
    fromAccountId := some fromAccount.id
    toAccountId := some toAccount.id
    fromUserId := some fromAccount.userId
    toUserId := some toAccount.userId
    externalFromAccount := none
    externalToAccount := none
    externalBankId := none
    description := d.description
    errorMessage := none
    completedAt := false }

/-- TransactionService.createInternalTransfer (lines 106-159): validate,
resolve destination by number, reject currency mismatch and self
transfer, insert a pending record, move the balances atomically, mark
completed. -/
def createInternalTransfer (st : Ledger) (freshId : String) (d : IInternalTransfer) :
    Ledger × Except AppError TransactionRec :=
  match validateAccounts st d.fromAccountId d.toAccount d.amount with
  | .error e => (st, .error e)
  | .ok fromAccount =>
    match findByNumber st d.toAccount with
    | none => (st, .error (.notFound "Destination account"))
    | some toAccount =>
      if fromAccount.currency ≠ toAccount.currency then
        (st, .error (.validation "Currency mismatch between accounts"))
      else if fromAccount.id = toAccount.id then
        (st, .error (.validation "Cannot transfer to the same account"))
      else
        let tx := internalPendingTx freshId d fromAccount toAccount
        match txCreate st tx with
        | .error e => (st, .error e)
        | .ok st1 =>
          let st2 := updateBalances st1 fromAccount (some toAccount) d.amount .internal
          let txDone := { tx with status := .completed, completedAt := true }
          (updateTx st2 freshId (fun _ => txDone), .ok txDone)

/-- JavaScript Number(x.toFixed(2)): round to two decimal places. -/
def jsToFixed2 (x : Rat) : Rat :=
  ((round (100 * x) : Int) : Rat) / 100

/-- BankService.convertAmount (bank.service.ts lines 75-78): multiply by
the fetched spot rate and round the product to two decimal places. The
rate lookup is passed in, since getExchangeRate is an axios call. -/
def convertAmount (amount rate : Rat) : Rat :=
  jsToFixed2 (amount * rate)

/-- Currency conversion used by B2BService.processIncomingTransaction
(b2b.service.ts line 808): Math.floor of amount times rate. -/
def b2bConvertAmount (amount rate : Rat) : Rat :=
  ((⌊amount * rate⌋ : Int) : Rat)

/-- Bank record returned by the central-bank registry
(IBankVerificationResponse in src/interfaces/b2b.interface.ts). -/
structure BankInfo where
  name : String
  bankCode : String
  transactionEndpoint : String
  jwksEndpoint : String
  isActive : Bool
deriving DecidableEq, Repr

/-- One key of a fetched JWKS document; only kid and the modulus n are
read by the code. -/
structure Jwk where
  kid : String
  n : String
deriving DecidableEq, Repr

/-- Payload of a transfer assertion (IB2BTransactionPayload). The
transactionId claim is not part of the declared interface; it is an extra
claim that the plain inbound controller reads from the decoded payload and
that B2BService.processIncomingTransaction never consults. The optional
description claim is likewise only read by that controller. -/
structure IB2BTransactionPayload where
  accountFrom : String
  accountTo : String
  currency : String
  amount : Rat
  explanation : String
  senderName : String
  transactionId : Option String
  description : Option String
deriving DecidableEq, Repr

/-- JWT header: the code only reads the kid claim. -/
structure JwtHeader where
  kid : Option String
deriving DecidableEq, Repr

/-- A syntactically well-formed three-part JWT, already base64-decoded.
Malformed tokens (not three dot-separated parts, undecodable JSON) are
represented by passing none where an Option JwtToken is expected. -/
structure JwtToken where
  header : JwtHeader
  payload : IB2BTransactionPayload
  sig : String
deriving DecidableEq, Repr

/-- IB2BTransactionResponse. -/
structure IB2BTransactionResponse where
  receiverName : String
  message : String
deriving DecidableEq, Repr

/-- External effects used by the engine: verifyBank models
B2BService.verifyBankWithCentralBank (axios GET to the registry),
fetchJwks the JWKS fetch, getExchangeRate the rate API of both
B2BService.getExchangeRate and BankService.getExchangeRate,
postTransaction the axios POST to the peer transaction endpoint,
loadPrivateKey the fs.readFileSync of the signing key, and verifyJwtSig
the jsonwebtoken.verify call (true when the token verifies against the
given PEM string). -/
structure Env where
  verifyBank : String → Except AppError BankInfo
  fetchJwks : String → Except AppError (List Jwk)
  getExchangeRate : String → String → Except AppError Rat
  postTransaction : String → Except AppError Unit
  loadPrivateKey : Except AppError String
  verifyJwtSig : JwtToken → String → Bool

/-- Bank code of this bank from the config module (the BANK_PREFIX
environment variable, default NELE). -/
def cfgBankCode : String := "NELE"

/-- config.bank.name default used in the outbound description fallback. -/
def cfgBankName : String := "Nele Bank"

/-- B2BService.jwkToPem (b2b.service.ts lines 651-665): wraps the raw
base64url modulus in PEM armor, which is not a real SPKI encoding. -/
def jwkToPem (jwk : Jwk) : String :=
  "-----BEGIN PUBLIC KEY-----\n" ++ jwk.n ++ "\n-----END PUBLIC KEY-----"

/-- Leading-match test on character lists (needle is an initial segment
of the haystack). -/
def charsLead : List Char → List Char → Bool
  | [], _ => true
  | _ :: _, [] => false
  | a :: l1, b :: l2 => decide (a = b) && charsLead l1 l2

/-- Containment test on character lists (needle occurs somewhere in the
haystack). -/
def charsWithin (needle : List Char) : List Char → Bool
  | [] => charsLead needle []
  | b :: l2 => charsLead needle (b :: l2) || charsWithin needle l2

/-- Substring test, modelling JavaScript String.includes. -/
def jsIncludes (s sub : String) : Bool :=
  charsWithin sub.data s.data

/-- The part of the string before the first dash, modelling the
JavaScript expression kid.split(the dash)[0]. -/
def headBeforeDash (k : String) : String :=
  ⟨k.data.takeWhile (fun c => decide (c ≠ Char.ofNat 45))⟩

/-- Source-bank code extraction of processIncomingTransaction (b2b
service lines 732-744): a kid containing HENN maps to HENN, otherwise the
part of the kid before the first dash, otherwise the TEST fallback. An
absent or empty kid is falsy in JavaScript. -/
def sourceBankCodeOf (kid : Option String) : String :=
  match kid with
  | none => "TEST"
  | some k =>
    if k = "" then "TEST"
    else if jsIncludes k "HENN" then "HENN"
    else headBeforeDash k

/-- B2BService.initiateExternalTransfer (b2b.service.ts lines 860-983):
format checks, own-bank rejection, registry verification of the
destination, sender lookup, key loading and delivery. It performs no
ledger mutation; the caller in the transaction service reacts to its
result. -/
def initiateExternalTransfer (env : Env) (st : Ledger) (fromAccount toAccount : String)
    (amount : Rat) (currency explanation : String) : Except AppError Unit :=
  if toAccount.length < 3 then .error (.jsError "Invalid destination account number format")
  else
    let bankCode := toAccount.take 3
    if fromAccount.length < 3 then .error (.jsError "Invalid source account number format")
    else if bankCode = cfgBankCode.take 3 then
      .error (.jsError "Cannot use external transfer for accounts at our own bank")
    else
      match env.verifyBank bankCode with
      | .error e => .error (.jsError ("Destination bank verification failed: " ++ msgOf e))
      | .ok destinationBank =>
        if !destinationBank.isActive then .error (.jsError "Destination bank is not active")
        else
          match findByNumber st fromAccount with
          | none => .error (.jsError "Sender account not found")
          | some _senderAccount =>
            match env.loadPrivateKey with
            | .error _ => .error (.jsError "Failed to load private key for JWT signing")
            | .ok _ =>
              match env.postTransaction destinationBank.transactionEndpoint with
              | .error e => .error (.jsError ("Failed to send transaction: " ++ msgOf e))
              | .ok _ => .ok ()

/-- The pending record built by TransactionService.createExternalTransfer
(lines 170-183). -/
def externalPendingTx (freshId : String) (d : IExternalTransfer)
    (fromAccount : Account) : TransactionRec :=
  { transactionId := freshId
    type := .external
    status := .pending
    amount := d.amount
    currency := fromAccount.currency
    fromAccountId := some fromAccount.id
    toAccountId := none
    fromUserId := some fromAccount.userId
    toUserId := none
    externalFromAccount := none
    externalToAccount := some d.toAccount
    externalBankId := some (d.toAccount.take 3)
    description := d.description
    errorMessage := none
    completedAt := false }

/-- TransactionService.createExternalTransfer (lines 161-245): validate
and reserve, insert the pending record, debit locally, then hand the
transfer to the B2B service; on delivery failure the compensation runs
fromAccount.balance += amount and save(). The fromAccount instance was
loaded by validateAccounts and Sequelize decrement does not refresh it
(no reload in the repository, SQLite returns nothing), so the value
written back is the pre-debit balance plus the amount: the stored row
ends at the initial balance plus the amount, not at the initial balance.
The record is marked failed and a TransactionError surfaces. -/
def createExternalTransfer (env : Env) (st : Ledger) (freshId : String)
    (d : IExternalTransfer) : Ledger × Except AppError TransactionRec :=
  match validateAccounts st d.fromAccountId d.toAccount d.amount with
  | .error e => (st, .error e)
  | .ok fromAccount =>
    let tx := externalPendingTx freshId d fromAccount
    match txCreate st tx with
    | .error e => (st, .error e)
    | .ok st1 =>
      let st2 := updateBalances st1 fromAccount none d.amount .external
      match initiateExternalTransfer env st2 fromAccount.accountNumber d.toAccount d.amount
          fromAccount.currency (jsOrStr d.description ("Transfer from " ++ cfgBankName)) with
      | .ok _ =>
        let txDone := { tx with status := .completed, completedAt := true }
        (updateTx st2 freshId (fun _ => txDone), .ok txDone)
      | .error e =>
        let st3 := updateAccount st2 fromAccount.id
          (fun a => { a with balance := fromAccount.balance + d.amount })
        let txFail := { tx with status := .failed, errorMessage := some (msgOf e) }
        (updateTx st3 freshId (fun _ => txFail),
          .error (.transactionError ("Failed to send transfer to destination bank: " ++ msgOf e)))

/-- IExternalTransactionRequest from the transaction interface; the
controller may leave transactionId and currency undefined at runtime, so
they are optional here. -/
structure IExternalTransactionRequest where
  transactionId : Option String
  fromAccount : String
  toAccount : String
  amount : Rat
  currency : Option String
  description : Option String
  explanation : Option String
  senderName : Option String
  signature : String
deriving DecidableEq, Repr

/-- The record built by TransactionService.handleIncomingExternalTransfer
(lines 284-299); note the four-character externalBankId slice. -/
def incomingPendingTx (freshId : String) (d : IExternalTransactionRequest)
    (currency description : String) (destinationAccount : Account) : TransactionRec :=
  { transactionId := jsOrStr d.transactionId freshId
    type := .external
    status := .pending
    amount := d.amount
    currency := currency
    fromAccountId := none
    toAccountId := some destinationAccount.id
    fromUserId := none
    toUserId := some destinationAccount.userId
    externalFromAccount := some d.fromAccount
    externalToAccount := none
    externalBankId := some (d.fromAccount.take 4)
    description := some description
    errorMessage := none
    completedAt := false }

/-- TransactionService.handleIncomingExternalTransfer (lines 247-321):
field checks, destination lookup, currency defaulting and equality check,
record insertion, credit of the destination balance, completion. There is
no signature check and no lookup for an existing record with the same
identifier; only the unique column constraint can stop a duplicate. -/
def handleIncomingExternalTransfer (st : Ledger) (freshId : String)
    (d : IExternalTransactionRequest) : Ledger × Except AppError TransactionRec :=
  if d.fromAccount = "" then (st, .error (.jsError "Source account (accountFrom) is required"))
  else if d.toAccount = "" then (st, .error (.jsError "Destination account (accountTo) is required"))
  else if d.amount ≤ 0 then (st, .error (.jsError "Amount must be greater than 0"))
  else
    match findByNumber st d.toAccount with
    | none => (st, .error (.jsError "Destination account not found"))
    | some destinationAccount =>
      let currency := jsOrStr d.currency destinationAccount.currency
      if destinationAccount.currency ≠ currency then (st, .error (.jsError "Currency mismatch"))
      else
        let description := jsOrStr d.explanation (jsOrStr d.description
          ("Payment from " ++ jsOrStr d.senderName "external account"))
        let tx := incomingPendingTx freshId d currency description destinationAccount
        match txCreate st tx with
        | .error e => (st, .error e)
        | .ok st1 =>
          let st2 := updateAccount st1 destinationAccount.id
            (fun a => { a with balance := a.balance + d.amount })
          let txDone := { tx with status := .completed, completedAt := true }
          (updateTx st2 tx.transactionId (fun _ => txDone), .ok txDone)

/-- TransactionController.handleIncomingExternalTransfer (first revision
of transaction.controller.ts, lines 135-191): split and base64-decode the
submitted token, build a transfer request from the decoded payload with
the raw signature part attached, and call the transaction service. The
signature is never verified on this path. -/
def ctrlHandleIncomingExternalTransfer (st : Ledger) (freshId : String)
    (tok : Option JwtToken) : Ledger × Except AppError TransactionRec :=
  match tok with
  | none => (st, .error (.jsError "Invalid JWT format"))
  | some t =>
    let payload := t.payload
    let transferData : IExternalTransactionRequest :=
      { transactionId := some (jsOrStr payload.transactionId freshId)
        fromAccount := payload.accountFrom
        toAccount := payload.accountTo
        amount := payload.amount
        currency := some payload.currency
        description := some (jsOrStr (some payload.explanation) (jsOrStr payload.description ""))
        explanation := none
        senderName := none
        signature := t.sig }
    handleIncomingExternalTransfer st freshId transferData

/-- Wrapping applied by the catch around JWT verification in
processIncomingTransaction (b2b.service.ts lines 839-842). -/
def jwtVerificationFailed (e : AppError) : AppError :=
  .jsError ("JWT verification failed: " ++ msgOf e)

/-- The record built by B2BService.processIncomingTransaction (lines
786-802): it is created before any currency conversion, with the amount
and currency claimed by the assertion, and a freshly generated
transactionId. -/
def b2bPendingTx (freshId : String) (payload : IB2BTransactionPayload)
    (bankCode : String) (receivingAccount : Account) : TransactionRec :=
  { transactionId := freshId
    type := .external
    status := .pending
    amount := payload.amount
    currency := payload.currency
    fromAccountId := some 0
    toAccountId := some receivingAccount.id
    fromUserId := some 0
    toUserId := some receivingAccount.userId
    externalFromAccount := some payload.accountFrom
    externalToAccount := none
    externalBankId := some bankCode
    description := some payload.explanation
    errorMessage := none
    completedAt := false }

/-- B2BService.processIncomingTransaction (final revision, lines 713-849):
derive the source bank from the kid, verify it with the registry, fetch
its JWKS, verify the token signature, resolve the receiving account,
insert the record, convert the amount when the currencies differ, credit
the destination, complete the record and return the receiver name. Every
failure after the active check is wrapped as a JWT verification failure
by the enclosing catch. -/
def processIncomingTransaction (env : Env) (st : Ledger) (freshId : String)
    (tok : JwtToken) : Ledger × Except AppError IB2BTransactionResponse :=
  let kid := tok.header.kid
  let bankCode := sourceBankCodeOf kid
  match env.verifyBank bankCode with
  | .error e => (st, .error e)
  | .ok sourceBank =>
    if !sourceBank.isActive then (st, .error (.jsError "Source bank is not active"))
    else
      match env.fetchJwks sourceBank.jwksEndpoint with
      | .error e => (st, .error (jwtVerificationFailed e))
      | .ok jwks =>
        let keyFound : Option Jwk := match kid with
          | none => none
          | some k0 => findFirst (fun k => decide (k.kid = k0)) jwks
        match keyFound with
        | none => (st, .error (jwtVerificationFailed (.jsError "Public key not found in JWKS")))
        | some key =>
          if !env.verifyJwtSig tok (jwkToPem key) then
            (st, .error (jwtVerificationFailed (.jsError "invalid signature")))
          else
            let payload := tok.payload
            match findByNumber st payload.accountTo with
            | none => (st, .error (jwtVerificationFailed (.jsError "Receiving account not found")))
            | some receivingAccount =>
              let tx := b2bPendingTx freshId payload bankCode receivingAccount
              match txCreate st tx with
              | .error e => (st, .error (jwtVerificationFailed e))
              | .ok st1 =>
                let conv : Except AppError Rat :=
                  if payload.currency ≠ receivingAccount.currency then
                    match env.getExchangeRate payload.currency receivingAccount.currency with
                    | .error e => .error e
                    | .ok rate => .ok (b2bConvertAmount payload.amount rate)
                  else .ok payload.amount
                match conv with
                | .error e =>
                  (updateTx st1 freshId (fun t => { t with status := .failed, errorMessage := some (msgOf e) }),
                    .error (jwtVerificationFailed e))
                | .ok creditAmount =>
                  let st2 := updateAccount st1 receivingAccount.id
                    (fun a => { a with balance := a.balance + creditAmount })
                  let st3 := updateTx st2 freshId
                    (fun t => { t with status := .completed, completedAt := true })
                  match findFirst (fun (u : UserRec) => decide (u.id = receivingAccount.userId)) st3.users with
                  | none =>
                    let stFail := updateTx st3 freshId (fun t =>
                      { t with status := .failed, errorMessage := some "Failed to load receiver information" })
                    (stFail, .error (jwtVerificationFailed (.jsError "Failed to load receiver information")))
                  | some user =>
                    (st3, .ok { receiverName := user.name, message := "Transaction processed successfully" })

/-- AccountService.updateAccountCurrency (account.service.ts lines
75-130): resolve the account by number, fetch a rate, convert the stored
balance with BankService.convertAmount (which re-fetches the same rate)
and atomically swap currency and balance. Returns the new balance. -/
def updateAccountCurrency (env : Env) (st : Ledger) (accountNumber newCurrency : String) :
    Ledger × Except AppError Rat :=
  match findByNumber st accountNumber with
  | none => (st, .error (.jsError "Account not found"))
  | some account =>
    if account.currency = newCurrency then
      (st, .error (.jsError "Account is already in the requested currency"))
    else
      match env.getExchangeRate account.currency newCurrency with
      | .error e => (st, .error e)
      | .ok rate =>
        let newBalance := convertAmount account.balance rate
        (updateAccount st account.id (fun a => { a with currency := newCurrency, balance := newBalance }),
          .ok newBalance)

/-- Ledger operations available to callers of the transaction service,
for stating the reachability invariant. -/
inductive LedgerOp where
  | internalTransfer (freshId : String) (d : IInternalTransfer)
  | externalTransfer (env : Env) (freshId : String) (d : IExternalTransfer)
  | incomingTransfer (freshId : String) (d : IExternalTransactionRequest)

/-- State reached after one service call (results discarded). -/
def applyOp (st : Ledger) (op : LedgerOp) : Ledger :=
  match op with
  | .internalTransfer freshId d => (createInternalTransfer st freshId d).1
  | .externalTransfer env freshId d => (createExternalTransfer env st freshId d).1
  | .incomingTransfer freshId d => (handleIncomingExternalTransfer st freshId d).1

/-! Helper lemmas about the store primitives. -/

/-- A successful findFirst returns a member satisfying the predicate. -/
theorem findFirst_eq_some {α : Type} {p : α → Bool} {l : List α} {a : α}
    (h : findFirst p l = some a) : a ∈ l ∧ p a = true := by
  induction l with
  | nil => simp [findFirst] at h
  | cons b l ih =>
    by_cases hb : p b
    · simp [findFirst, hb] at h
      subst h
      exact ⟨List.mem_cons_self b l, hb⟩
    · simp [findFirst, hb] at h
      rcases ih h with ⟨hm, hp⟩
      exact ⟨List.mem_cons_of_mem _ hm, hp⟩

/-- findFirst misses exactly when no member satisfies the predicate. -/
theorem findFirst_eq_none {α : Type} {p : α → Bool} {l : List α} :
    findFirst p l = none ↔ ∀ a ∈ l, p a = false := by
  induction l with
  | nil => simp [findFirst]
  | cons b l ih => by_cases hb : p b <;> simp [findFirst, hb, ih]

/-- findFirst skips a miss-only left part. -/
theorem findFirst_append_none {α : Type} {p : α → Bool} {l1 l2 : List α}
    (h : findFirst p l1 = none) : findFirst p (l1 ++ l2) = findFirst p l2 := by
  induction l1 with
  | nil => rfl
  | cons b l ih =>
    by_cases hb : p b
    · simp [findFirst, hb] at h
    · simp [findFirst, hb] at h ⊢
      exact ih h

/-- findFirst commutes with a map that does not disturb the predicate. -/
theorem findFirst_map_of_pred {α : Type} (g : α → α) (p : α → Bool) (l : List α)
    (h : ∀ a, p (g a) = p a) : findFirst p (l.map g) = (findFirst p l).map g := by
  induction l with
  | nil => rfl
  | cons b l ih => by_cases hb : p b <;> simp [findFirst, h, hb, ih]

/-- Account lookup after an update of one row, when the update does not
touch primary keys. -/
theorem findByPk_updateAccount (st : Ledger) (i j : Nat) (f : Account → Account)
    (hf : ∀ a, (f a).id = a.id) :
    findByPk (updateAccount st j f) i =
      (findByPk st i).map (fun a => if a.id = j then f a else a) := by
  unfold findByPk updateAccount
  refine findFirst_map_of_pred _ _ _ ?_
  intro a
  by_cases h : a.id = j <;> simp [h, hf]

/-- Lookup by number after an update that does not touch account
numbers. -/
theorem findByNumber_updateAccount (st : Ledger) (n : String) (j : Nat) (f : Account → Account)
    (hf : ∀ a, (f a).accountNumber = a.accountNumber) :
    findByNumber (updateAccount st j f) n =
      (findByNumber st n).map (fun a => if a.id = j then f a else a) := by
  unfold findByNumber updateAccount
  refine findFirst_map_of_pred _ _ _ ?_
  intro a
  by_cases h : a.id = j <;> simp [h, hf]

/-- Inserting a record with an unused identifier succeeds and appends. -/
theorem txCreate_ok (st : Ledger) (tx : TransactionRec)
    (hfresh : txById st tx.transactionId = none) :
    txCreate st tx = .ok { st with transactions := st.transactions ++ [tx] } := by
  unfold txCreate txIdExists
  rw [hfresh]
  rfl

/-- Reading back the record after an insert (into any state holding the
old rows plus the new one) followed by a status update, when the
identifier was unused among the old rows and the update keeps it. -/
theorem txById_state_insert_update (st2 : Ledger) (old : List TransactionRec)
    (tx : TransactionRec) (f : TransactionRec → TransactionRec)
    (htrans : st2.transactions = old ++ [tx])
    (hfresh : findFirst (fun t => decide (t.transactionId = tx.transactionId)) old = none)
    (hf : (f tx).transactionId = tx.transactionId) :
    txById (updateTx st2 tx.transactionId f) tx.transactionId = some (f tx) := by
  unfold txById updateTx
  rw [htrans]
  have hall := findFirst_eq_none.mp hfresh
  simp only [List.map_append, List.map_cons, List.map_nil]
  have hid : List.map (fun t => if t.transactionId = tx.transactionId then f t else t) old = old := by
    have hcongr : List.map (fun t => if t.transactionId = tx.transactionId then f t else t) old
        = List.map id old := by
      refine List.map_congr_left ?_
      intro t ht
      have : (t.transactionId = tx.transactionId) = False := by
        simpa using of_decide_eq_false (hall t ht)
      simp [this]
    simpa using hcongr
  rw [hid, findFirst_append_none hfresh]
  simp [findFirst, hf]

/-- With unique primary keys, a member of the account table is found by
its own id. -/
theorem findByPk_mem_nodup (st : Ledger) (B : Account)
    (hWF : (st.accounts.map (fun a => a.id)).Nodup) (hmem : B ∈ st.accounts) :
    findByPk st B.id = some B := by
  cases hf : findByPk st B.id with
  | none =>
    exfalso
    have hnone := findFirst_eq_none.mp hf B hmem
    simp at hnone
  | some C =>
    rcases findFirst_eq_some hf with ⟨hmC, hpC⟩
    have hCB : C.id = B.id := by simpa using hpC
    have := List.inj_on_of_nodup_map hWF hmC hmem hCB
    rw [this]

/-- The account returned by findByPk carries the id it was looked up
with. -/
theorem findByPk_id_eq (st : Ledger) (i : Nat) (A : Account)
    (hA : findByPk st i = some A) : A.id = i := by
  rcases findFirst_eq_some hA with ⟨_, hp⟩
  simpa using hp

/-- validateAccounts succeeds exactly on a resolvable source with enough
funds and a positive amount. -/
theorem validateAccounts_eq_ok (st : Ledger) (i : Nat) (n : String) (amt : Rat) (A : Account)
    (hA : findByPk st i = some A) (h1 : ¬ A.balance < amt) (h2 : ¬ amt ≤ 0) :
    validateAccounts st i n amt = .ok A := by
  unfold validateAccounts
  rw [hA]
  simp [h1, h2]

/-- validateAccounts surfaces InsufficientFunds first. -/
theorem validateAccounts_insufficient (st : Ledger) (i : Nat) (n : String) (amt : Rat) (A : Account)
    (hA : findByPk st i = some A) (h1 : A.balance < amt) :
    validateAccounts st i n amt = .error .insufficientFunds := by
  unfold validateAccounts
  rw [hA]
  simp [h1]

/-- Inversion of a successful validateAccounts. -/
theorem validateAccounts_ok_inv (st : Ledger) (i : Nat) (n : String) (amt : Rat) (A : Account)
    (h : validateAccounts st i n amt = .ok A) :
    findByPk st i = some A ∧ ¬ A.balance < amt ∧ ¬ amt ≤ 0 := by
  unfold validateAccounts at h
  cases hf : findByPk st i <;> rw [hf] at h
  · simp at h
  · rename_i B
    by_cases h1 : B.balance < amt
    · simp [h1] at h
    · by_cases h2 : amt ≤ 0
      · simp [h1, h2] at h
      · simp [h1, h2] at h
        subst h
        exact ⟨rfl, h1, h2⟩

/-- Full description of a successful internal transfer. -/
theorem internalTransfer_success_spec (st : Ledger) (freshId : String) (d : IInternalTransfer)
    (A B : Account)
    (hWF : (st.accounts.map (fun a => a.id)).Nodup)
    (hA : findByPk st d.fromAccountId = some A)
    (hB : findByNumber st d.toAccount = some B)
    (hbal : ¬ A.balance < d.amount) (hpos : ¬ d.amount ≤ 0)
    (hcur : A.currency = B.currency) (hne : A.id ≠ B.id)
    (hfresh : txById st freshId = none) :
    balanceOf (createInternalTransfer st freshId d).1 A.id = some (A.balance - d.amount) ∧
    balanceOf (createInternalTransfer st freshId d).1 B.id = some (B.balance + d.amount) ∧
    txById (createInternalTransfer st freshId d).1 freshId =
      some { internalPendingTx freshId d A B with status := .completed, completedAt := true } ∧
    (createInternalTransfer st freshId d).2 =
      .ok { internalPendingTx freshId d A B with status := .completed, completedAt := true } := by
  have hval := validateAccounts_eq_ok st d.fromAccountId d.toAccount d.amount A hA hbal hpos
  have hAid : findByPk st A.id = some A := by
    rw [findByPk_id_eq st d.fromAccountId A hA]
    exact hA
  have hBid : findByPk st B.id = some B := by
    refine findByPk_mem_nodup st B hWF ?_
    exact (findFirst_eq_some hB).1
  have hfreshtx : txById st (internalPendingTx freshId d A B).transactionId = none := hfresh
  have hcreate := txCreate_ok st (internalPendingTx freshId d A B) hfreshtx
  unfold createInternalTransfer
  rw [hval, hB]
  simp only [hcur, hne, if_false, ite_not, ne_eq, not_true_eq_false, not_false_eq_true, if_true]
  rw [hcreate]
  have hAid2 : findFirst (fun a => decide (a.id = A.id)) st.accounts = some A := hAid
  have hBid2 : findFirst (fun a => decide (a.id = B.id)) st.accounts = some B := hBid
  refine ⟨?_, ?_, ?_, rfl⟩
  · simp only [balanceOf, findByPk, updateTx, updateAccount, updateBalances]
    rw [findFirst_map_of_pred, findFirst_map_of_pred, hAid2]
    · simp [hne]
    · intro a
      by_cases h : a.id = A.id <;> simp [h]
    · intro a
      by_cases h : a.id = B.id <;> simp [h]
  · simp only [balanceOf, findByPk, updateTx, updateAccount, updateBalances]
    rw [findFirst_map_of_pred, findFirst_map_of_pred, hBid2]
    · simp [Ne.symm hne]
    · intro a
      by_cases h : a.id = A.id <;> simp [h]
    · intro a
      by_cases h : a.id = B.id <;> simp [h]
  · refine txById_state_insert_update _ st.transactions (internalPendingTx freshId d A B) _ ?_ ?_ ?_
    · simp [updateBalances, updateAccount]
    · exact hfresh
    · rfl

/-! Concrete fixtures shared by the witnesses and counterexamples. -/

/-- A EUR account with a hundred units, owned by user 10. -/
def acctA : Account := { id := 1, accountNumber := "NELE1000000001", userId := 10, currency := "EUR", balance := 100 }

/-- A EUR account with zero balance, owned by user 11. -/
def acctB : Account := { id := 2, accountNumber := "NELE1000000002", userId := 11, currency := "EUR", balance := 0 }

/-- A USD account with zero balance, owned by user 12. -/
def acctC : Account := { id := 3, accountNumber := "NELE1000000003", userId := 12, currency := "USD", balance := 0 }

/-- A small concrete ledger. -/
def ledger0 : Ledger :=
  { accounts := [acctA, acctB, acctC]
    transactions := []
    users := [{ id := 10, name := "Alice" }, { id := 11, name := "Bob" }, { id := 12, name := "Carol" }] }

/-- Registry record for an active bank with the given code. -/
def bankOf (c : String) : BankInfo :=
  { name := "Test Bank"
    bankCode := c
    transactionEndpoint := "http://localhost:3001/transactions/b2b"
    jwksEndpoint := "http://localhost:3001/jwks.json"
    isActive := true }

/-- An environment in which every external collaborator cooperates: the
registry knows every bank as active, the JWKS holds one key, every
signature verifies, the rate is 9/10 and delivery succeeds. -/
def envOk : Env :=
  { verifyBank := fun c => .ok (bankOf c)
    fetchJwks := fun _ => .ok [{ kid := "HENN300", n := "AB" }]
    getExchangeRate := fun _ _ => .ok (9 / 10)
    postTransaction := fun _ => .ok ()
    loadPrivateKey := .ok "KEY"
    verifyJwtSig := fun _ _ => true }

/-- C4 witness transfer request. -/
def dIntW : IInternalTransfer :=
  { fromAccountId := 1, toAccount := "NELE1000000002", amount := 50, currency := "EUR", description := none }

/-- C4: a successful internal transfer between same-currency accounts
debits the source by the amount, credits the destination by the same
amount, preserves the sum of the two balances, and the transaction record
ends completed. -/
theorem c4_internal_transfer_zero_sum (st : Ledger) (freshId : String) (d : IInternalTransfer)
    (A B : Account)
    (hWF : (st.accounts.map (fun a => a.id)).Nodup)
    (hA : findByPk st d.fromAccountId = some A)
    (hB : findByNumber st d.toAccount = some B)
    (hbal : ¬ A.balance < d.amount) (hpos : ¬ d.amount ≤ 0)
    (hcur : A.currency = B.currency) (hne : A.id ≠ B.id)
    (hfresh : txById st freshId = none) :
    balanceOf (createInternalTransfer st freshId d).1 A.id = some (A.balance - d.amount) ∧
    balanceOf (createInternalTransfer st freshId d).1 B.id = some (B.balance + d.amount) ∧
    A.balance - d.amount + (B.balance + d.amount) = A.balance + B.balance ∧
    (txById (createInternalTransfer st freshId d).1 freshId).map (fun t => t.status) =
      some .completed ∧
    (createInternalTransfer st freshId d).2 =
      .ok { internalPendingTx freshId d A B with status := .completed, completedAt := true } := by
  rcases internalTransfer_success_spec st freshId d A B hWF hA hB hbal hpos hcur hne hfresh with
    ⟨h1, h2, h3, h4⟩
  refine ⟨h1, h2, by ring, ?_, h4⟩
  rw [h3]
  rfl

/-- C4 witness: the theorem applied to the concrete ledger, transferring
fifty from the funded EUR account to the empty EUR account. -/
theorem c4_witness :
    ((ledger0.accounts.map (fun a => a.id)).Nodup ∧
      findByPk ledger0 1 = some acctA ∧
      findByNumber ledger0 "NELE1000000002" = some acctB ∧
      ¬ acctA.balance < dIntW.amount ∧ ¬ dIntW.amount ≤ 0 ∧
      acctA.currency = acctB.currency ∧ acctA.id ≠ acctB.id ∧
      txById ledger0 "u1" = none) ∧
    (balanceOf (createInternalTransfer ledger0 "u1" dIntW).1 acctA.id = some (acctA.balance - dIntW.amount) ∧
      balanceOf (createInternalTransfer ledger0 "u1" dIntW).1 acctB.id = some (acctB.balance + dIntW.amount) ∧
      acctA.balance - dIntW.amount + (acctB.balance + dIntW.amount) = acctA.balance + acctB.balance ∧
      (txById (createInternalTransfer ledger0 "u1" dIntW).1 "u1").map (fun t => t.status) =
        some .completed ∧
      (createInternalTransfer ledger0 "u1" dIntW).2 =
        .ok { internalPendingTx "u1" dIntW acctA acctB with status := .completed, completedAt := true }) :=
  ⟨⟨by decide, by decide, by decide, by decide, by decide, by decide, by decide, by decide⟩,
    c4_internal_transfer_zero_sum ledger0 "u1" dIntW acctA acctB (by decide) (by decide) (by decide)
      (by decide) (by decide) (by decide) (by decide) (by decide)⟩

/-- Transfer request between the EUR and the USD account with an amount
exceeding the source balance. -/
def dMismatch : IInternalTransfer :=
  { fromAccountId := 1, toAccount := "NELE1000000003", amount := 5000, currency := "EUR", description := none }

/-- Transfer request between the EUR and the USD account with an amount
within the source balance. -/
def dMismatchFunded : IInternalTransfer :=
  { fromAccountId := 1, toAccount := "NELE1000000003", amount := 50, currency := "EUR", description := none }

/-- C7 counterexample: an internal transfer request between accounts of
different currencies is rejected with InsufficientFunds, not
ValidationError, when the amount exceeds the source balance, because
validateAccounts runs before the currency comparison. -/
theorem c7_insufficient_funds_masks_currency_mismatch :
    createInternalTransfer ledger0 "u1" dMismatch = (ledger0, .error .insufficientFunds) ∧
    acctA.currency ≠ acctC.currency ∧
    findByPk ledger0 dMismatch.fromAccountId = some acctA ∧
    findByNumber ledger0 dMismatch.toAccount = some acctC ∧
    (∀ m, AppError.insufficientFunds ≠ AppError.validation m) := by
  refine ⟨?_, by decide, by decide, by decide, fun m h => by cases h⟩
  norm_num +decide [createInternalTransfer, validateAccounts, findByPk, findByNumber, ledger0,
    acctA, acctB, acctC, dMismatch, findFirst]

/-- C7 (amended): an internal transfer between accounts of different
currencies is rejected with a ValidationError and no state change,
provided the source balance covers the amount; with a smaller balance the
rejection is InsufficientFunds instead (see the counterexample), still
with no state change. -/
theorem c7_currency_mismatch_rejected_no_state_change (st : Ledger) (freshId : String)
    (d : IInternalTransfer) (A B : Account)
    (hA : findByPk st d.fromAccountId = some A)
    (hB : findByNumber st d.toAccount = some B)
    (hcur : A.currency ≠ B.currency)
    (hbal : ¬ A.balance < d.amount) :
    (∃ m, (createInternalTransfer st freshId d).2 = .error (.validation m)) ∧
    (createInternalTransfer st freshId d).1 = st := by
  unfold createInternalTransfer validateAccounts
  rw [hA]
  by_cases hpos : d.amount ≤ 0
  · simp [hbal, hpos]
  · rw [hB]
    simp [hbal, hpos, hcur]

/-- C7 witness: the amended theorem applied to a funded EUR to USD
request on the concrete ledger. -/
theorem c7_witness :
    (findByPk ledger0 dMismatchFunded.fromAccountId = some acctA ∧
      findByNumber ledger0 dMismatchFunded.toAccount = some acctC ∧
      acctA.currency ≠ acctC.currency ∧
      ¬ acctA.balance < dMismatchFunded.amount) ∧
    ((∃ m, (createInternalTransfer ledger0 "u1" dMismatchFunded).2 = .error (.validation m)) ∧
      (createInternalTransfer ledger0 "u1" dMismatchFunded).1 = ledger0) :=
  ⟨⟨by decide, by decide, by decide, by decide⟩,
    c7_currency_mismatch_rejected_no_state_change ledger0 "u1" dMismatchFunded acctA acctC
      (by decide) (by decide) (by decide) (by decide)⟩

/-- C10: the created internal transfer record takes its currency from the
source account, and the currency supplied in the request is never read:
two requests differing only in that field produce identical results. -/
theorem c10_internal_currency_from_source_account (st : Ledger) (freshId : String)
    (d : IInternalTransfer) (c2 : String) (A : Account)
    (hA : findByPk st d.fromAccountId = some A) :
    createInternalTransfer st freshId { d with currency := c2 } =
      createInternalTransfer st freshId d ∧
    ∀ tx, (createInternalTransfer st freshId d).2 = .ok tx → tx.currency = A.currency := by
  constructor
  · rfl
  · intro tx h
    cases hval : validateAccounts st d.fromAccountId d.toAccount d.amount with
    | error e =>
      unfold createInternalTransfer at h
      rw [hval] at h
      simp at h
    | ok A2 =>
      have hA2 : A2 = A := by
        rcases validateAccounts_ok_inv st d.fromAccountId d.toAccount d.amount A2 hval with ⟨hf, _, _⟩
        rw [hA] at hf
        exact (Option.some_inj.mp hf).symm
      subst hA2
      unfold createInternalTransfer at h
      rw [hval] at h
      cases hfindB : findByNumber st d.toAccount with
      | none =>
        rw [hfindB] at h
        simp at h
      | some B =>
        rw [hfindB] at h
        by_cases h1 : A2.currency = B.currency
        · by_cases h2 : A2.id = B.id
          · simp [h1, h2] at h
          · simp only [h1, h2, ne_eq, not_true_eq_false, not_false_eq_true, if_false, if_true,
              ite_not] at h
            cases hc : txCreate st (internalPendingTx freshId d A2 B) with
            | error e =>
              rw [hc] at h
              simp at h
            | ok st1 =>
              rw [hc] at h
              simp at h
              rw [← h]
              rfl
        · simp [h1] at h

/-- C10 witness: the theorem applied to the concrete ledger; the request
currency XXX is ignored and the recorded currency is the source account
currency EUR. -/
theorem c10_witness :
    (findByPk ledger0 dIntW.fromAccountId = some acctA) ∧
    (createInternalTransfer ledger0 "u1" { dIntW with currency := "XXX" } =
      createInternalTransfer ledger0 "u1" dIntW ∧
    ∀ tx, (createInternalTransfer ledger0 "u1" dIntW).2 = .ok tx → tx.currency = acctA.currency) :=
  ⟨by decide,
    c10_internal_currency_from_source_account ledger0 "u1" dIntW "XXX" acctA (by decide)⟩

/-- Environment whose exchange-rate service reports a 1.105 rate. -/
def envRate : Env :=
  { verifyBank := fun c => .ok (bankOf c)
    fetchJwks := fun _ => .ok []
    getExchangeRate := fun _ _ => .ok (1105 / 1000)
    postTransaction := fun _ => .ok ()
    loadPrivateKey := .ok "KEY"
    verifyJwtSig := fun _ _ => false }

/-- C9 counterexample: switching the 100-unit EUR account to USD at rate
1.105 stores the non-integer balance 110.5, because convertAmount keeps
two decimal places; so stored amounts are not all integers in minor
units. -/
theorem c9_stored_balance_non_integer :
    (updateAccountCurrency envRate ledger0 "NELE1000000001" "USD").2 = .ok (221 / 2) ∧
    balanceOf (updateAccountCurrency envRate ledger0 "NELE1000000001" "USD").1 1 = some (221 / 2) ∧
    ((221 : Rat) / 2).den ≠ 1 := by
  refine ⟨?_, ?_, by norm_num [Rat.den]⟩ <;>
  norm_num +decide [updateAccountCurrency, convertAmount, jsToFixed2, findByNumber, ledger0,
    acctA, acctB, acctC, findFirst, updateAccount, balanceOf, findByPk, envRate, bankOf]

/-- C9 (amended): the two conversion sites use different rounding
policies; the inbound B2B conversion applies Math.floor and always
produces an integer, while BankService.convertAmount rounds the product
to two decimal places and can produce (and store) a non-integer amount. -/
theorem c9_conversion_policies :
    (∀ amount rate : Rat, (b2bConvertAmount amount rate).den = 1) ∧
    (convertAmount 100 (1105 / 1000)).den ≠ 1 := by
  constructor
  · intro a r
    exact Rat.den_intCast _
  · have h : convertAmount 100 (1105 / 1000) = 221 / 2 := by
      norm_num [convertAmount, jsToFixed2]
    rw [h]
    norm_num [Rat.den]

/-- initiateExternalTransfer reads the ledger only through the account
table (sender lookup), so states with equal account tables are
interchangeable. -/
theorem initiateExternalTransfer_accounts_congr (env : Env) (st st' : Ledger)
    (h : st.accounts = st'.accounts) (fromAccount toAccount : String) (amount : Rat)
    (currency explanation : String) :
    initiateExternalTransfer env st fromAccount toAccount amount currency explanation =
      initiateExternalTransfer env st' fromAccount toAccount amount currency explanation := by
  unfold initiateExternalTransfer findByNumber
  rw [h]

/-- Full description of an outbound transfer whose B2B delivery step
fails after the local debit: the compensation writes the stale pre-debit
instance balance plus the amount, so the stored balance ends at the
initial balance plus the amount; the record ends failed with the failure
message and a TransactionError surfaces. -/
theorem externalTransfer_failure_spec (env : Env) (st : Ledger) (freshId : String)
    (d : IExternalTransfer) (A : Account) (e : AppError)
    (hA : findByPk st d.fromAccountId = some A)
    (hbal : ¬ A.balance < d.amount) (hpos : ¬ d.amount ≤ 0)
    (hfresh : txById st freshId = none)
    (hfail : initiateExternalTransfer env
        (updateAccount st A.id (fun a => { a with balance := a.balance - d.amount }))
        A.accountNumber d.toAccount d.amount A.currency
        (jsOrStr d.description ("Transfer from " ++ cfgBankName)) = .error e) :
    balanceOf (createExternalTransfer env st freshId d).1 A.id = some (A.balance + d.amount) ∧
    txById (createExternalTransfer env st freshId d).1 freshId =
      some { externalPendingTx freshId d A with status := .failed, errorMessage := some (msgOf e) } ∧
    (createExternalTransfer env st freshId d).2 =
      .error (.transactionError ("Failed to send transfer to destination bank: " ++ msgOf e)) := by
  have hval := validateAccounts_eq_ok st d.fromAccountId d.toAccount d.amount A hA hbal hpos
  have hAid : findByPk st A.id = some A := by
    rw [findByPk_id_eq st d.fromAccountId A hA]
    exact hA
  have hAid2 : findFirst (fun a => decide (a.id = A.id)) st.accounts = some A := hAid
  have hfreshtx : txById st (externalPendingTx freshId d A).transactionId = none := hfresh
  have hcreate := txCreate_ok st (externalPendingTx freshId d A) hfreshtx
  unfold createExternalTransfer
  rw [hval]
  dsimp only
  rw [hcreate]
  dsimp only
  have hfail2 : initiateExternalTransfer env
      (updateBalances { st with transactions := st.transactions ++ [externalPendingTx freshId d A] }
        A none d.amount TransactionType.external)
      A.accountNumber d.toAccount d.amount A.currency
      (jsOrStr d.description ("Transfer from " ++ cfgBankName)) = .error e := by
    refine Eq.trans (initiateExternalTransfer_accounts_congr env
      (updateBalances { st with transactions := st.transactions ++ [externalPendingTx freshId d A] }
        A none d.amount TransactionType.external)
      (updateAccount st A.id (fun a => { a with balance := a.balance - d.amount })) rfl
      A.accountNumber d.toAccount d.amount A.currency
      (jsOrStr d.description ("Transfer from " ++ cfgBankName))) hfail
  rw [hfail2]
  refine ⟨?_, ?_, rfl⟩
  · simp only [balanceOf, findByPk, updateTx, updateAccount, updateBalances]
    rw [findFirst_map_of_pred, findFirst_map_of_pred, hAid2]
    · simp
    · intro a
      by_cases h : a.id = A.id <;> simp [h]
    · intro a
      by_cases h : a.id = A.id <;> simp [h]
  · refine txById_state_insert_update _ st.transactions (externalPendingTx freshId d A) _ ?_ ?_ ?_
    · simp [updateBalances, updateAccount]
    · exact hfresh
    · rfl

/-- Outbound transfer request used by the outbound demonstrations. -/
def dExt : IExternalTransfer :=
  { fromAccountId := 1, toAccount := "HENN2000000001", toBankId := "HENN", amount := 50, currency := "EUR", description := none }

/-- Environment whose delivery POST to the peer bank fails. -/
def envNetFail : Env :=
  { verifyBank := fun c => .ok (bankOf c)
    fetchJwks := fun _ => .ok []
    getExchangeRate := fun _ _ => .ok 1
    postTransaction := fun _ => .error (.jsError "network down")
    loadPrivateKey := .ok "KEY"
    verifyJwtSig := fun _ _ => false }

/-- C3: an outbound transfer that fails after the local debit does NOT
end with the source balance restored: the compensation assigns the stale
pre-debit instance balance plus the amount and saves it, so a 50-unit
transfer from the 100-unit account with a failing delivery leaves the
stored balance at 150, not 100. The record does end failed and a
TransactionError surfaces, but the balance-restored half of the claim is
violated by the code, against the stated compensation intent. -/
theorem c3_outbound_failure_overcredits :
    balanceOf ledger0 1 = some 100 ∧
    balanceOf (createExternalTransfer envNetFail ledger0 "u1" dExt).1 1 = some 150 ∧
    (txById (createExternalTransfer envNetFail ledger0 "u1" dExt).1 "u1").map
      (fun t => t.status) = some .failed ∧
    (createExternalTransfer envNetFail ledger0 "u1" dExt).2 =
      .error (.transactionError
        "Failed to send transfer to destination bank: Failed to send transaction: network down") ∧
    (150 : Rat) ≠ 100 := by
  refine ⟨by decide, ?_, ?_, ?_, by decide⟩ <;>
  norm_num +decide [createExternalTransfer, initiateExternalTransfer, validateAccounts, findByPk,
    findByNumber, ledger0, acctA, acctB, acctC, dExt, findFirst, externalPendingTx, txCreate,
    txIdExists, txById, updateAccount, updateTx, updateBalances, balanceOf, envNetFail, bankOf,
    cfgBankCode, msgOf, jsOrStr, cfgBankName]

/-- Registry record for an inactive bank with the given code. -/
def bankOffline (c : String) : BankInfo :=
  { name := "Test Bank"
    bankCode := c
    transactionEndpoint := "http://localhost:3001/transactions/b2b"
    jwksEndpoint := "http://localhost:3001/jwks.json"
    isActive := false }

/-- Environment whose registry reports every bank as inactive. -/
def envInactive : Env :=
  { verifyBank := fun c => .ok (bankOffline c)
    fetchJwks := fun _ => .ok []
    getExchangeRate := fun _ _ => .ok 1
    postTransaction := fun _ => .ok ()
    loadPrivateKey := .ok "KEY"
    verifyJwtSig := fun _ _ => false }

/-- C5 counterexample: an outbound transfer to a bank code the registry
reports inactive is rejected with TransactionError, not ValidationError,
and only after the debit: the intermediate state handed to the delivery
step carries the decremented balance 50 (down from 100), and the
compensation then writes the stale pre-debit balance plus the amount,
leaving the stored balance at 150. -/
theorem c5_inactive_bank_rejected_after_debit :
    (createExternalTransfer envInactive ledger0 "u1" dExt).2 =
      .error (.transactionError
        "Failed to send transfer to destination bank: Destination bank is not active") ∧
    (∀ m, (createExternalTransfer envInactive ledger0 "u1" dExt).2 ≠ .error (.validation m)) ∧
    balanceOf (updateBalances { ledger0 with transactions := [externalPendingTx "u1" dExt acctA] }
      acctA none dExt.amount TransactionType.external) 1 = some 50 ∧
    balanceOf ledger0 1 = some 100 ∧
    balanceOf (createExternalTransfer envInactive ledger0 "u1" dExt).1 1 = some 150 ∧
    (txById (createExternalTransfer envInactive ledger0 "u1" dExt).1 "u1").map
      (fun t => t.status) = some .failed := by
  have hres : (createExternalTransfer envInactive ledger0 "u1" dExt).2 =
      .error (.transactionError
        "Failed to send transfer to destination bank: Destination bank is not active") := by
    norm_num +decide [createExternalTransfer, initiateExternalTransfer, validateAccounts, findByPk,
      findByNumber, ledger0, acctA, acctB, acctC, dExt, findFirst, externalPendingTx, txCreate,
      txIdExists, txById, updateAccount, updateTx, updateBalances, envInactive, bankOffline,
      cfgBankCode, msgOf, jsOrStr, cfgBankName]
  refine ⟨hres, ?_, ?_, ?_, ?_, ?_⟩
  · intro m
    rw [hres]
    simp
  all_goals
  norm_num +decide [createExternalTransfer, initiateExternalTransfer, validateAccounts, findByPk,
    findByNumber, ledger0, acctA, acctB, acctC, dExt, findFirst, externalPendingTx, txCreate,
    txIdExists, txById, updateAccount, updateTx, updateBalances, balanceOf, envInactive,
    bankOffline, cfgBankCode, msgOf, jsOrStr, cfgBankName]

/-- C5 (amended): an outbound transfer to a bank code the registry reports
inactive is not stopped before the debit; the debit happens first, the
registry check fails inside the delivery step, the compensation then
writes the stale pre-debit balance plus the amount (the stored source
balance ends at the initial balance plus the amount), the record ends
failed, and the surfaced error is a TransactionError. -/
theorem c5_inactive_bank_rejected_by_transaction_error (env : Env) (st : Ledger)
    (freshId : String) (d : IExternalTransfer) (A : Account) (bank : BankInfo)
    (hA : findByPk st d.fromAccountId = some A)
    (hbal : ¬ A.balance < d.amount) (hpos : ¬ d.amount ≤ 0)
    (hfresh : txById st freshId = none)
    (hlen1 : ¬ d.toAccount.length < 3) (hlen2 : ¬ A.accountNumber.length < 3)
    (hown : ¬ d.toAccount.take 3 = cfgBankCode.take 3)
    (hreg : env.verifyBank (d.toAccount.take 3) = .ok bank)
    (hact : bank.isActive = false) :
    balanceOf (createExternalTransfer env st freshId d).1 A.id = some (A.balance + d.amount) ∧
    (txById (createExternalTransfer env st freshId d).1 freshId).map (fun t => t.status) =
      some .failed ∧
    (createExternalTransfer env st freshId d).2 =
      .error (.transactionError
        "Failed to send transfer to destination bank: Destination bank is not active") := by
  have hfail : initiateExternalTransfer env
      (updateAccount st A.id (fun a => { a with balance := a.balance - d.amount }))
      A.accountNumber d.toAccount d.amount A.currency
      (jsOrStr d.description ("Transfer from " ++ cfgBankName)) =
      .error (.jsError "Destination bank is not active") := by
    unfold initiateExternalTransfer
    simp [hlen1, hlen2, hown, hreg, hact]
  rcases externalTransfer_failure_spec env st freshId d A
      (.jsError "Destination bank is not active") hA hbal hpos hfresh hfail with ⟨h1, h2, h3⟩
  refine ⟨h1, ?_, h3⟩
  rw [h2]
  rfl

/-- C5 witness: the amended theorem applied to the concrete ledger and
the inactive registry. -/
theorem c5_witness :
    (findByPk ledger0 dExt.fromAccountId = some acctA ∧
      ¬ acctA.balance < dExt.amount ∧ ¬ dExt.amount ≤ 0 ∧
      txById ledger0 "u1" = none ∧
      ¬ dExt.toAccount.length < 3 ∧ ¬ acctA.accountNumber.length < 3 ∧
      ¬ dExt.toAccount.take 3 = cfgBankCode.take 3 ∧
      envInactive.verifyBank (dExt.toAccount.take 3) = .ok (bankOffline "HEN") ∧
      (bankOffline "HEN").isActive = false) ∧
    (balanceOf (createExternalTransfer envInactive ledger0 "u1" dExt).1 acctA.id =
        some (acctA.balance + dExt.amount) ∧
      (txById (createExternalTransfer envInactive ledger0 "u1" dExt).1 "u1").map
        (fun t => t.status) = some .failed ∧
      (createExternalTransfer envInactive ledger0 "u1" dExt).2 =
        .error (.transactionError
          "Failed to send transfer to destination bank: Destination bank is not active")) :=
  ⟨⟨by decide, by decide, by decide, by decide, by decide, by decide, by decide, by rfl, by decide⟩,
    c5_inactive_bank_rejected_by_transaction_error envInactive ledger0 "u1" dExt acctA
      (bankOffline "HEN") (by decide) (by decide) (by decide) (by decide) (by decide) (by decide)
      (by decide) (by rfl) (by decide)⟩

/-- updateTx leaves the user table alone. -/
theorem users_updateTx (st : Ledger) (tid : String) (f : TransactionRec → TransactionRec) :
    (updateTx st tid f).users = st.users := rfl

/-- updateAccount leaves the user table alone. -/
theorem users_updateAccount (st : Ledger) (i : Nat) (f : Account → Account) :
    (updateAccount st i f).users = st.users := rfl

/-- Full description of a verified inbound B2B transfer whose assertion
currency differs from the destination currency: the credit is the
floor-converted amount, while the stored record keeps the assertion
currency and amount it was created with. -/
theorem processIncoming_converted_spec (env : Env) (st : Ledger) (freshId : String)
    (tok : JwtToken) (bank : BankInfo) (jwks : List Jwk) (key : Jwk) (k0 : String)
    (recv : Account) (rate : Rat) (user : UserRec)
    (hkid : tok.header.kid = some k0)
    (hreg : env.verifyBank (sourceBankCodeOf tok.header.kid) = .ok bank)
    (hact : bank.isActive = true)
    (hjwks : env.fetchJwks bank.jwksEndpoint = .ok jwks)
    (hkey : findFirst (fun k => decide (k.kid = k0)) jwks = some key)
    (hsig : env.verifyJwtSig tok (jwkToPem key) = true)
    (hrecv : findByNumber st tok.payload.accountTo = some recv)
    (hrecvid : findByPk st recv.id = some recv)
    (hcur : tok.payload.currency ≠ recv.currency)
    (hrate : env.getExchangeRate tok.payload.currency recv.currency = .ok rate)
    (hfresh : txById st freshId = none)
    (huser : findFirst (fun (u : UserRec) => decide (u.id = recv.userId)) st.users = some user) :
    balanceOf (processIncomingTransaction env st freshId tok).1 recv.id =
      some (recv.balance + b2bConvertAmount tok.payload.amount rate) ∧
    txById (processIncomingTransaction env st freshId tok).1 freshId =
      some { b2bPendingTx freshId tok.payload (sourceBankCodeOf tok.header.kid) recv with
        status := .completed, completedAt := true } ∧
    (processIncomingTransaction env st freshId tok).2 =
      .ok { receiverName := user.name, message := "Transaction processed successfully" } := by
  have hfreshtx : txById st
      (b2bPendingTx freshId tok.payload (sourceBankCodeOf tok.header.kid) recv).transactionId =
      none := hfresh
  have hcreate := txCreate_ok st
    (b2bPendingTx freshId tok.payload (sourceBankCodeOf tok.header.kid) recv) hfreshtx
  have hrecvid2 : findFirst (fun a => decide (a.id = recv.id)) st.accounts = some recv := hrecvid
  rw [hkid] at hreg hcreate
  unfold processIncomingTransaction
  dsimp only
  rw [hkid]
  dsimp only
  rw [hreg]
  dsimp only
  simp only [hact, Bool.not_true, Bool.false_eq_true, if_false]
  rw [hjwks]
  dsimp only
  rw [hkey]
  dsimp only
  rw [hsig]
  simp only [Bool.not_true, Bool.false_eq_true, if_false]
  rw [hrecv]
  dsimp only
  rw [hcreate]
  dsimp only
  simp only [hcur, not_false_eq_true, if_true, ite_not]
  rw [hrate]
  dsimp only
  simp only [if_false]
  simp only [users_updateTx, users_updateAccount]
  rw [huser]
  dsimp only
  refine ⟨?_, ?_, rfl⟩
  · simp only [balanceOf, findByPk, updateTx, updateAccount]
    rw [findFirst_map_of_pred, hrecvid2]
    · simp
    · intro a
      by_cases h : a.id = recv.id <;> simp [h]
  · refine txById_state_insert_update _ st.transactions
      (b2bPendingTx freshId tok.payload (sourceBankCodeOf (some k0)) recv) _ ?_ ?_ ?_
    · simp [updateAccount]
    · exact hfresh
    · rfl

/-- C6 (amended): for a verified inbound assertion in a currency other
than the destination currency, the credited amount is recomputed through
the conversion adapter as the floor of amount times rate, but the
Transaction record keeps the assertion currency and original amount: the
record is created before the conversion and never updated with the
converted values. -/
theorem c6_inbound_conversion_keeps_payload_currency (env : Env) (st : Ledger) (freshId : String)
    (tok : JwtToken) (bank : BankInfo) (jwks : List Jwk) (key : Jwk) (k0 : String)
    (recv : Account) (rate : Rat) (user : UserRec)
    (hkid : tok.header.kid = some k0)
    (hreg : env.verifyBank (sourceBankCodeOf tok.header.kid) = .ok bank)
    (hact : bank.isActive = true)
    (hjwks : env.fetchJwks bank.jwksEndpoint = .ok jwks)
    (hkey : findFirst (fun k => decide (k.kid = k0)) jwks = some key)
    (hsig : env.verifyJwtSig tok (jwkToPem key) = true)
    (hrecv : findByNumber st tok.payload.accountTo = some recv)
    (hrecvid : findByPk st recv.id = some recv)
    (hcur : tok.payload.currency ≠ recv.currency)
    (hrate : env.getExchangeRate tok.payload.currency recv.currency = .ok rate)
    (hfresh : txById st freshId = none)
    (huser : findFirst (fun (u : UserRec) => decide (u.id = recv.userId)) st.users = some user) :
    balanceOf (processIncomingTransaction env st freshId tok).1 recv.id =
      some (recv.balance + b2bConvertAmount tok.payload.amount rate) ∧
    (txById (processIncomingTransaction env st freshId tok).1 freshId).map
      (fun t => t.currency) = some tok.payload.currency ∧
    (txById (processIncomingTransaction env st freshId tok).1 freshId).map
      (fun t => t.amount) = some tok.payload.amount ∧
    (txById (processIncomingTransaction env st freshId tok).1 freshId).map
      (fun t => t.status) = some .completed ∧
    (processIncomingTransaction env st freshId tok).2 =
      .ok { receiverName := user.name, message := "Transaction processed successfully" } := by
  rcases processIncoming_converted_spec env st freshId tok bank jwks key k0 recv rate user
    hkid hreg hact hjwks hkey hsig hrecv hrecvid hcur hrate hfresh huser with ⟨h1, h2, h3⟩
  refine ⟨h1, ?_, ?_, ?_, h3⟩ <;> rw [h2] <;> rfl

/-- Payload of a USD assertion aimed at the EUR account. -/
def payC6 : IB2BTransactionPayload :=
  { accountFrom := "HENN111"
    accountTo := "NELE1000000002"
    currency := "USD"
    amount := 100
    explanation := "usd payment"
    senderName := "Henno"
    transactionId := none
    description := none }

/-- The USD assertion as a signed token. -/
def tokC6 : JwtToken := { header := { kid := some "HENN300" }, payload := payC6, sig := "sig" }

/-- C6 counterexample: a verified inbound assertion of 100 USD delivered
to the EUR account credits the floor-converted 90 (at rate 9/10), but the
stored Transaction record says 100 USD, not EUR: the recorded currency is
the assertion currency, contradicting the claim that it is the
destination account currency. -/
theorem c6_converted_inbound_records_source_currency :
    balanceOf (processIncomingTransaction envOk ledger0 "u1" tokC6).1 2 = some 90 ∧
    (txById (processIncomingTransaction envOk ledger0 "u1" tokC6).1 "u1").map
      (fun t => t.currency) = some "USD" ∧
    (txById (processIncomingTransaction envOk ledger0 "u1" tokC6).1 "u1").map
      (fun t => t.amount) = some 100 ∧
    (findByNumber ledger0 "NELE1000000002").map (fun a => a.currency) = some "EUR" ∧
    "USD" ≠ "EUR" := by
  refine ⟨?_, ?_, ?_, by decide, by decide⟩ <;>
  norm_num +decide [processIncomingTransaction, sourceBankCodeOf, jsIncludes, envOk, bankOf,
    ledger0, acctA, acctB, acctC, tokC6, payC6, findFirst, findByNumber, b2bPendingTx, txCreate,
    txIdExists, txById, updateAccount, updateTx, balanceOf, findByPk, jwkToPem, b2bConvertAmount]

/-- C6 witness: the amended theorem applied to the USD assertion, the EUR
destination account and rate 9/10. -/
theorem c6_witness :
    (tokC6.header.kid = some "HENN300" ∧
      envOk.verifyBank (sourceBankCodeOf tokC6.header.kid) = .ok (bankOf "HENN") ∧
      (bankOf "HENN").isActive = true ∧
      envOk.fetchJwks (bankOf "HENN").jwksEndpoint = .ok [{ kid := "HENN300", n := "AB" }] ∧
      findFirst (fun (k : Jwk) => decide (k.kid = "HENN300"))
        ([{ kid := "HENN300", n := "AB" }] : List Jwk) = some { kid := "HENN300", n := "AB" } ∧
      envOk.verifyJwtSig tokC6 (jwkToPem { kid := "HENN300", n := "AB" }) = true ∧
      findByNumber ledger0 tokC6.payload.accountTo = some acctB ∧
      findByPk ledger0 acctB.id = some acctB ∧
      tokC6.payload.currency ≠ acctB.currency ∧
      envOk.getExchangeRate tokC6.payload.currency acctB.currency = .ok (9 / 10) ∧
      txById ledger0 "u1" = none ∧
      findFirst (fun (u : UserRec) => decide (u.id = acctB.userId)) ledger0.users =
        some { id := 11, name := "Bob" }) ∧
    (balanceOf (processIncomingTransaction envOk ledger0 "u1" tokC6).1 acctB.id =
        some (acctB.balance + b2bConvertAmount tokC6.payload.amount (9 / 10)) ∧
      (txById (processIncomingTransaction envOk ledger0 "u1" tokC6).1 "u1").map
        (fun t => t.currency) = some tokC6.payload.currency ∧
      (txById (processIncomingTransaction envOk ledger0 "u1" tokC6).1 "u1").map
        (fun t => t.amount) = some tokC6.payload.amount ∧
      (txById (processIncomingTransaction envOk ledger0 "u1" tokC6).1 "u1").map
        (fun t => t.status) = some .completed ∧
      (processIncomingTransaction envOk ledger0 "u1" tokC6).2 =
        .ok { receiverName := "Bob", message := "Transaction processed successfully" }) :=
  ⟨⟨by decide, by rfl, by decide, by rfl, by decide, by rfl, by decide, by decide, by decide,
      by rfl, by decide, by decide⟩,
    c6_inbound_conversion_keeps_payload_currency envOk ledger0 "u1" tokC6 (bankOf "HENN")
      [{ kid := "HENN300", n := "AB" }] { kid := "HENN300", n := "AB" } "HENN300" acctB (9 / 10)
      { id := 11, name := "Bob" } (by decide) (by rfl) (by decide) (by rfl) (by decide) (by rfl)
      (by decide) (by decide) (by decide) (by rfl) (by decide) (by decide)⟩

/-- Payload of an assertion whose signature is never checked on the plain
controller path. -/
def payC1 : IB2BTransactionPayload :=
  { accountFrom := "HENN9999"
    accountTo := "NELE1000000002"
    currency := "EUR"
    amount := 50
    explanation := "spoofed"
    senderName := "Mallory"
    transactionId := some "ext-1"
    description := none }

/-- The assertion as a three-part token with a garbage signature. -/
def tokC1 : JwtToken := { header := { kid := none }, payload := payC1, sig := "garbage" }

/-- C1: the inbound controller path decodes the token payload without any
signature verification and still mutates the ledger: posting a token with
a garbage signature for an existing destination account creates a
completed Transaction record and credits the destination balance, so
unverified input does reach the ledger, contrary to the claim. -/
theorem c1_unverified_inbound_credits_ledger :
    balanceOf ledger0 2 = some 0 ∧
    ledger0.transactions = [] ∧
    balanceOf (ctrlHandleIncomingExternalTransfer ledger0 "u1" (some tokC1)).1 2 = some 50 ∧
    (txById (ctrlHandleIncomingExternalTransfer ledger0 "u1" (some tokC1)).1 "ext-1").map
      (fun t => t.status) = some .completed ∧
    (ctrlHandleIncomingExternalTransfer ledger0 "u1" (some tokC1)).1.transactions.length = 1 := by
  refine ⟨by decide, by decide, ?_, ?_, ?_⟩ <;>
  norm_num +decide [ctrlHandleIncomingExternalTransfer, handleIncomingExternalTransfer, findByPk,
    findByNumber, ledger0, acctA, acctB, acctC, tokC1, payC1, findFirst, jsOrStr, incomingPendingTx,
    txCreate, txIdExists, txById, updateAccount, updateTx, balanceOf]

/-- Payload of an assertion carrying the transaction identifier dup-1. -/
def payC2 : IB2BTransactionPayload :=
  { accountFrom := "HENN111"
    accountTo := "NELE1000000002"
    currency := "EUR"
    amount := 50
    explanation := "pay"
    senderName := "Henno"
    transactionId := some "dup-1"
    description := none }

/-- The dup-1 assertion as a signed token. -/
def tokC2 : JwtToken := { header := { kid := some "HENN300" }, payload := payC2, sig := "sig" }

/-- C2: the B2B inbound receiver records every submission under a freshly
generated transactionId and never checks for an existing record, so
delivering the same verified assertion (carrying transaction identifier
dup-1) twice credits the destination twice: the balance is 50 after one
submission and 100 after two, and the second submission also reports
success. -/
theorem c2_inbound_resubmission_double_credits :
    balanceOf (processIncomingTransaction envOk ledger0 "u1" tokC2).1 2 = some 50 ∧
    balanceOf (processIncomingTransaction envOk
      (processIncomingTransaction envOk ledger0 "u1" tokC2).1 "u2" tokC2).1 2 = some 100 ∧
    (processIncomingTransaction envOk
      (processIncomingTransaction envOk ledger0 "u1" tokC2).1 "u2" tokC2).2 =
      .ok { receiverName := "Bob", message := "Transaction processed successfully" } ∧
    (50 : Rat) ≠ 100 := by
  refine ⟨?_, ?_, ?_, by decide⟩ <;>
  norm_num +decide [processIncomingTransaction, sourceBankCodeOf, jsIncludes, charsWithin,
    charsLead, envOk, bankOf, ledger0, acctA, acctB, acctC, tokC2, payC2, findFirst, findByNumber,
    b2bPendingTx, txCreate, txIdExists, txById, updateAccount, updateTx, balanceOf, findByPk,
    jwkToPem, b2bConvertAmount]

/-- Every stored balance is non-negative. -/
@[reducible]
def nonnegBalances (st : Ledger) : Prop := ∀ a ∈ st.accounts, 0 ≤ a.balance

/-- The account table respects its primary key: ids are unique. -/
@[reducible]
def wfAccountIds (st : Ledger) : Prop := (st.accounts.map (fun a => a.id)).Nodup

theorem ids_map_ite (l : List Account) (i : Nat) (f : Account → Account)
    (hf : ∀ a, (f a).id = a.id) :
    (l.map (fun a => if a.id = i then f a else a)).map (fun a => a.id) =
      l.map (fun a => a.id) := by
  rw [List.map_map]
  refine List.map_congr_left ?_
  intro a _
  by_cases h : a.id = i <;> simp [h, hf]

theorem nonneg_map_ite (l : List Account) (i : Nat) (f : Account → Account)
    (h0 : ∀ a ∈ l, 0 ≤ a.balance)
    (hf : ∀ a ∈ l, a.id = i → 0 ≤ (f a).balance) :
    ∀ b ∈ l.map (fun a => if a.id = i then f a else a), 0 ≤ b.balance := by
  intro b hb
  rcases List.mem_map.mp hb with ⟨a, ha, rfl⟩
  by_cases h : a.id = i
  · simpa [h] using hf a ha h
  · simpa [h] using h0 a ha

theorem eq_of_findByPk (st : Ledger) (i : Nat) (A : Account) (hWF : wfAccountIds st)
    (hA : findByPk st i = some A) : ∀ a ∈ st.accounts, a.id = i → a = A := by
  intro a ha hid
  have hmem := (findFirst_eq_some hA).1
  have hAi : A.id = i := findByPk_id_eq st i A hA
  exact List.inj_on_of_nodup_map hWF ha hmem (by rw [hid, hAi])

theorem txCreate_ok_inv (st : Ledger) (tx : TransactionRec) (st1 : Ledger)
    (h : txCreate st tx = .ok st1) :
    st1 = { st with transactions := st.transactions ++ [tx] } := by
  unfold txCreate at h
  by_cases hex : txIdExists st tx.transactionId <;> simp [hex] at h
  exact h.symm

theorem preserve_internal (st : Ledger) (freshId : String) (d : IInternalTransfer)
    (hWF : wfAccountIds st) (h0 : nonnegBalances st) :
    wfAccountIds (createInternalTransfer st freshId d).1 ∧
      nonnegBalances (createInternalTransfer st freshId d).1 := by
  unfold createInternalTransfer
  cases hval : validateAccounts st d.fromAccountId d.toAccount d.amount with
  | error e => exact ⟨hWF, h0⟩
  | ok A =>
    rcases validateAccounts_ok_inv st d.fromAccountId d.toAccount d.amount A hval with
      ⟨hA, hbal, hpos⟩
    cases hB : findByNumber st d.toAccount with
    | none => exact ⟨hWF, h0⟩
    | some B =>
      dsimp only
      by_cases hcur : A.currency ≠ B.currency
      · rw [if_pos hcur]
        exact ⟨hWF, h0⟩
      · rw [if_neg hcur]
        by_cases hne : A.id = B.id
        · rw [if_pos hne]
          exact ⟨hWF, h0⟩
        · rw [if_neg hne]
          cases hc : txCreate st (internalPendingTx freshId d A B) with
          | error e => exact ⟨hWF, h0⟩
          | ok st1 =>
            dsimp only
            have hst1 := txCreate_ok_inv st (internalPendingTx freshId d A B) st1 hc
            subst hst1
            constructor
            · show ((updateBalances _ A (some B) d.amount .internal).accounts.map
                (fun a => a.id)).Nodup
              simp only [updateBalances, updateAccount]
              rw [ids_map_ite _ B.id (fun a => { a with balance := a.balance + d.amount })
                (fun a => rfl)]
              rw [ids_map_ite _ A.id (fun a => { a with balance := a.balance - d.amount })
                (fun a => rfl)]
              exact hWF
            · show ∀ b ∈ (updateBalances _ A (some B) d.amount .internal).accounts, 0 ≤ b.balance
              simp only [updateBalances, updateAccount]
              refine nonneg_map_ite _ _ _ ?_ ?_
              · refine nonneg_map_ite _ _ _ h0 ?_
                intro a ha hid
                have haA : a = A := eq_of_findByPk st d.fromAccountId A hWF hA a ha
                  (by rw [hid, findByPk_id_eq st d.fromAccountId A hA])
                subst haA
                exact sub_nonneg.mpr (not_lt.mp hbal)
              · intro a ha hid
                rcases List.mem_map.mp ha with ⟨a0, ha0, rfl⟩
                have h1 : (0 : Rat) ≤ (if a0.id = A.id then
                    { a0 with balance := a0.balance - d.amount } else a0).balance := by
                  by_cases h : a0.id = A.id
                  · rw [if_pos h]
                    have haA : a0 = A := eq_of_findByPk st d.fromAccountId A hWF hA a0 ha0
                      (by rw [h, findByPk_id_eq st d.fromAccountId A hA])
                    subst haA
                    exact sub_nonneg.mpr (not_lt.mp hbal)
                  · rw [if_neg h]
                    exact h0 a0 ha0
                have hamt : (0 : Rat) < d.amount := not_le.mp hpos
                exact add_nonneg h1 (le_of_lt hamt)

theorem preserve_external (env : Env) (st : Ledger) (freshId : String) (d : IExternalTransfer)
    (hWF : wfAccountIds st) (h0 : nonnegBalances st) :
    wfAccountIds (createExternalTransfer env st freshId d).1 ∧
      nonnegBalances (createExternalTransfer env st freshId d).1 := by
  unfold createExternalTransfer
  cases hval : validateAccounts st d.fromAccountId d.toAccount d.amount with
  | error e => exact ⟨hWF, h0⟩
  | ok A =>
    rcases validateAccounts_ok_inv st d.fromAccountId d.toAccount d.amount A hval with
      ⟨hA, hbal, hpos⟩
    dsimp only
    cases hc : txCreate st (externalPendingTx freshId d A) with
    | error e => exact ⟨hWF, h0⟩
    | ok st1 =>
      dsimp only
      have hst1 := txCreate_ok_inv st (externalPendingTx freshId d A) st1 hc
      subst hst1
      have hnonnegDebit : ∀ b ∈ (st.accounts.map (fun a =>
          if a.id = A.id then { a with balance := a.balance - d.amount } else a)), 0 ≤ b.balance := by
        refine nonneg_map_ite _ _ _ h0 ?_
        intro a ha hid
        have haA : a = A := eq_of_findByPk st d.fromAccountId A hWF hA a ha
          (by rw [hid, findByPk_id_eq st d.fromAccountId A hA])
        subst haA
        exact sub_nonneg.mpr (not_lt.mp hbal)
      have hidsDebit : ((st.accounts.map (fun a =>
          if a.id = A.id then { a with balance := a.balance - d.amount } else a)).map
            (fun a => a.id)) = st.accounts.map (fun a => a.id) :=
        ids_map_ite _ A.id (fun a => { a with balance := a.balance - d.amount }) (fun a => rfl)
      cases hsend : initiateExternalTransfer env
          (updateBalances { st with transactions := st.transactions ++ [externalPendingTx freshId d A] }
            A none d.amount TransactionType.external)
          A.accountNumber d.toAccount d.amount A.currency
          (jsOrStr d.description ("Transfer from " ++ cfgBankName)) with
      | ok u =>
        constructor
        · show ((updateBalances _ A none d.amount .external).accounts.map (fun a => a.id)).Nodup
          simp only [updateBalances, updateAccount]
          rw [hidsDebit]
          exact hWF
        · show ∀ b ∈ (updateBalances _ A none d.amount .external).accounts, 0 ≤ b.balance
          simp only [updateBalances, updateAccount]
          exact hnonnegDebit
      | error e =>
        constructor
        · show ((updateAccount (updateBalances _ A none d.amount .external) A.id
              (fun a => { a with balance := A.balance + d.amount })).accounts.map
                (fun a => a.id)).Nodup
          simp only [updateBalances, updateAccount]
          rw [ids_map_ite _ A.id (fun a => { a with balance := A.balance + d.amount })
            (fun a => rfl)]
          rw [hidsDebit]
          exact hWF
        · show ∀ b ∈ (updateAccount (updateBalances _ A none d.amount .external) A.id
              (fun a => { a with balance := A.balance + d.amount })).accounts, 0 ≤ b.balance
          simp only [updateBalances, updateAccount]
          refine nonneg_map_ite _ _ _ hnonnegDebit ?_
          intro a ha hid
          have hamt : (0 : Rat) < d.amount := not_le.mp hpos
          have hAnn : (0 : Rat) ≤ A.balance := h0 A (findFirst_eq_some hA).1
          exact add_nonneg hAnn (le_of_lt hamt)

theorem preserve_incoming (st : Ledger) (freshId : String) (d : IExternalTransactionRequest)
    (hWF : wfAccountIds st) (h0 : nonnegBalances st) :
    wfAccountIds (handleIncomingExternalTransfer st freshId d).1 ∧
      nonnegBalances (handleIncomingExternalTransfer st freshId d).1 := by
  unfold handleIncomingExternalTransfer
  by_cases h1 : d.fromAccount = ""
  · rw [if_pos h1]
    exact ⟨hWF, h0⟩
  · rw [if_neg h1]
    by_cases h2 : d.toAccount = ""
    · rw [if_pos h2]
      exact ⟨hWF, h0⟩
    · rw [if_neg h2]
      by_cases h3 : d.amount ≤ 0
      · rw [if_pos h3]
        exact ⟨hWF, h0⟩
      · rw [if_neg h3]
        cases hdest : findByNumber st d.toAccount with
        | none => exact ⟨hWF, h0⟩
        | some dest =>
          dsimp only
          by_cases h4 : dest.currency ≠ jsOrStr d.currency dest.currency
          · rw [if_pos h4]
            exact ⟨hWF, h0⟩
          · rw [if_neg h4]
            cases hc : txCreate st (incomingPendingTx freshId d (jsOrStr d.currency dest.currency)
                (jsOrStr d.explanation (jsOrStr d.description
                  ("Payment from " ++ jsOrStr d.senderName "external account"))) dest) with
            | error e => exact ⟨hWF, h0⟩
            | ok st1 =>
              dsimp only
              have hst1 := txCreate_ok_inv st _ st1 hc
              subst hst1
              constructor
              · show ((updateTx (updateAccount _ dest.id
                    (fun a => { a with balance := a.balance + d.amount })) _ _).accounts.map
                      (fun a => a.id)).Nodup
                simp only [updateTx, updateAccount]
                rw [ids_map_ite _ dest.id (fun a => { a with balance := a.balance + d.amount })
                  (fun a => rfl)]
                exact hWF
              · show ∀ b ∈ (updateTx (updateAccount _ dest.id
                    (fun a => { a with balance := a.balance + d.amount })) _ _).accounts,
                    0 ≤ b.balance
                simp only [updateTx, updateAccount]
                refine nonneg_map_ite _ _ _ h0 ?_
                intro a ha hid
                have hamt : (0 : Rat) < d.amount := not_le.mp h3
                exact add_nonneg (h0 a ha) (le_of_lt hamt)

theorem preserve_applyOp (st : Ledger) (op : LedgerOp)
    (h : wfAccountIds st ∧ nonnegBalances st) :
    wfAccountIds (applyOp st op) ∧ nonnegBalances (applyOp st op) := by
  cases op with
  | internalTransfer f d2 => exact preserve_internal st f d2 h.1 h.2
  | externalTransfer env f d2 => exact preserve_external env st f d2 h.1 h.2
  | incomingTransfer f d2 => exact preserve_incoming st f d2 h.1 h.2

theorem preserve_foldl (ops : List LedgerOp) (st : Ledger)
    (h : wfAccountIds st ∧ nonnegBalances st) :
    wfAccountIds (ops.foldl applyOp st) ∧ nonnegBalances (ops.foldl applyOp st) := by
  induction ops generalizing st with
  | nil => exact h
  | cons op ops ih => exact ih (applyOp st op) (preserve_applyOp st op h)

/-- An internal transfer whose amount exceeds the source balance fails
with InsufficientFunds and changes nothing. -/
theorem internal_insufficient (st : Ledger) (freshId : String) (d : IInternalTransfer)
    (A : Account) (hA : findByPk st d.fromAccountId = some A)
    (hlt : A.balance < d.amount) :
    createInternalTransfer st freshId d = (st, .error .insufficientFunds) := by
  unfold createInternalTransfer
  rw [validateAccounts_insufficient st d.fromAccountId d.toAccount d.amount A hA hlt]

/-- An outbound transfer whose amount exceeds the source balance fails
with InsufficientFunds and changes nothing. -/
theorem external_insufficient (env : Env) (st : Ledger) (freshId : String)
    (d : IExternalTransfer) (A : Account) (hA : findByPk st d.fromAccountId = some A)
    (hlt : A.balance < d.amount) :
    createExternalTransfer env st freshId d = (st, .error .insufficientFunds) := by
  unfold createExternalTransfer
  rw [validateAccounts_insufficient st d.fromAccountId d.toAccount d.amount A hA hlt]

/-- C8: starting from a state with unique account ids where every balance
is non-negative, every sequence of transfer operations (internal transfer,
outbound transfer with compensation, inbound credit) leaves every balance
non-negative; and a debit of more than the current balance fails with
InsufficientFunds on both transfer paths, leaving the state unchanged. -/
theorem c8_balance_nonneg_invariant (st : Ledger)
    (hWF : wfAccountIds st) (h0 : nonnegBalances st) :
    (∀ ops : List LedgerOp, nonnegBalances (ops.foldl applyOp st)) ∧
    (∀ (freshId : String) (d : IInternalTransfer) (A : Account),
      findByPk st d.fromAccountId = some A → A.balance < d.amount →
      createInternalTransfer st freshId d = (st, .error .insufficientFunds)) ∧
    (∀ (env : Env) (freshId : String) (d : IExternalTransfer) (A : Account),
      findByPk st d.fromAccountId = some A → A.balance < d.amount →
      createExternalTransfer env st freshId d = (st, .error .insufficientFunds)) := by
  refine ⟨?_, ?_, ?_⟩
  · intro ops
    exact (preserve_foldl ops st ⟨hWF, h0⟩).2
  · intro freshId d A hA hlt
    exact internal_insufficient st freshId d A hA hlt
  · intro env freshId d A hA hlt
    exact external_insufficient env st freshId d A hA hlt

/-- C8 witness: the theorem applied to the concrete ledger; in particular
the 5000-unit transfer attempt from the 100-unit account is rejected with
InsufficientFunds and leaves the state unchanged. -/
theorem c8_witness :
    (wfAccountIds ledger0 ∧ nonnegBalances ledger0) ∧
    ((∀ ops : List LedgerOp, nonnegBalances (ops.foldl applyOp ledger0)) ∧
      (∀ (freshId : String) (d : IInternalTransfer) (A : Account),
        findByPk ledger0 d.fromAccountId = some A → A.balance < d.amount →
        createInternalTransfer ledger0 freshId d = (ledger0, .error .insufficientFunds)) ∧
      (∀ (env : Env) (freshId : String) (d : IExternalTransfer) (A : Account),
        findByPk ledger0 d.fromAccountId = some A → A.balance < d.amount →
        createExternalTransfer env ledger0 freshId d = (ledger0, .error .insufficientFunds))) :=
  ⟨⟨by decide, by decide⟩, c8_balance_nonneg_invariant ledger0 (by decide) (by decide)⟩
